import Mathlib

/-!
# Verification of the turbo-tasks backend core
  (src/turbopack/crates/turbo-tasks-backend/src/backend/mod.rs)

Shallow embedding of the backend's data model and operations.

Modelling conventions:
* `TaskId` is a `Nat` (the Rust type is a `u32` newtype; `TRANSIENT_TASK_BIT`
  is bit 31, so persistent ids live in `[1, 2^31 - 1]` and transient ids in
  `[2^31, 2^32 - 1]`).
* Events (`Event` in turbo-tasks) are identified by `Nat` tokens.  A
  listener on an event is modelled by the event's token; `notify` is modelled
  by appending the event token to a notification log in the state, so a
  theorem can observe exactly which events a call notified.
* Opaque payloads (function arguments `Box<dyn MagicAny>`, cell contents,
  transient futures) are modelled by `Nat` tokens; equality of tokens models
  structural equality of payloads.
* Panics (`panic!`, `.expect`, `todo!`, the `assert!` in
  `operation_suspend_point`) are modelled by `Option`/a `panicked`
  constructor: `none`/`panicked` means the Rust code aborts there.
* Concurrency: the backend's methods are embedded as sequential state
  transformers `State → Result × State`.  Where a claim is about a racy
  interleaving (the `try_insert` race in `get_or_create_persistent_task`, the
  condition-variable wait in `operation_suspend_point`) the interference is
  made explicit as a `State → State` parameter inserted at the exact program
  point where the Rust code can observe interference, constrained only by
  hypotheses stating which parts of the state the concurrent parties do not
  touch.
-/

/-- `TRANSIENT_TASK_BIT` from turbo-tasks: bit 31 of a `u32` task id. -/
def TRANSIENT_TASK_BIT : Nat := 2 ^ 31

/-- `SNAPSHOT_REQUESTED_BIT: usize = 1 << 63` (mod.rs line 48). -/
def SNAPSHOT_REQUESTED_BIT : Nat := 2 ^ 63

/-- `CellId { type_id, index }` — a (value-type-id, ordinal) pair. -/
structure CellId where
  typeId : Nat
  index : Nat
deriving DecidableEq, Repr

/-- `CachedTaskType` — the structural fingerprint of a persistent task:
`Native { fn_type, this, arg }`, `ResolveNative { fn_type, this, arg }` or
`ResolveTrait { trait_type, method_name, this, arg }`.  Receivers and
argument blobs are opaque tokens. -/
inductive CachedTaskType where
  | native (fnType : Nat) (this : Option Nat) (arg : Nat)
  | resolveNative (fnType : Nat) (this : Option Nat) (arg : Nat)
  | resolveTrait (traitType : Nat) (methodName : String) (this : Nat) (arg : Nat)
deriving DecidableEq, Repr

/-- Modelled from the spec: the string rendering of a fingerprint used by
`get_task_description` (`task_type.to_string()`; the `Display` impl lives in
turbo-tasks, outside the backend module). -/
def CachedTaskType.render : CachedTaskType → String
  | .native fnType _ _ => "native " ++ toString fnType
  | .resolveNative fnType _ _ => "resolve-native " ++ toString fnType
  | .resolveTrait traitType methodName _ _ =>
      "resolve-trait " ++ toString traitType ++ "::" ++ methodName

/-- `TransientTaskType`: `Root` (restartable future factory) or `Once`
(single future).  The future/factory is an opaque token. -/
inductive TransientTaskType where
  | root (f : Nat)
  | once (f : Nat)
deriving DecidableEq, Repr

/-- `InProgressState` (data.rs): either
`Scheduled { clean, done_event, start_event }` or
`InProgress { clean, stale, done_event }`. -/
inductive InProgressState where
  | scheduled (clean : Bool) (doneEvent : Nat) (startEvent : Nat)
  | inProgress (clean : Bool) (stale : Bool) (doneEvent : Nat)
deriving DecidableEq, Repr

/-- The `done_event` carried by either variant of `InProgressState`. -/
def InProgressState.doneEvent : InProgressState → Nat
  | .scheduled _ d _ => d
  | .inProgress _ _ d => d

/-- Whether the item is the `Scheduled` variant. -/
def InProgressState.isScheduled : InProgressState → Bool
  | .scheduled _ _ _ => true
  | .inProgress _ _ _ => false

/-- `OutputValue` (data.rs): `Cell(CellRef)`, `Output(TaskId)`, `Error`,
`Panic`. -/
inductive OutputValue where
  | cell (task : Nat) (cellId : CellId)
  | output (task : Nat)
  | error
  | panic
deriving DecidableEq, Repr

/-- `RawVc` results relevant to the read path: `TaskCell(task, cell)` and
`TaskOutput(task)`. -/
inductive RawVc where
  | taskCell (task : Nat) (cellId : CellId)
  | taskOutput (task : Nat)
deriving DecidableEq, Repr

/-- Per-task view of the `CachedDataItem` bag, keyed by `CachedDataItemKey`
category: `InProgress`, `Output` and `Error` occur at most once per task,
`CellData{cell}` once per cell, `Child{task}` once per child. -/
structure TaskStorage where
  inProgress : Option InProgressState
  output : Option OutputValue
  error : Option String
  cellData : List (CellId × Nat)
  children : List Nat
deriving DecidableEq, Repr

/-- A task with no data items. -/
def TaskStorage.empty : TaskStorage :=
  { inProgress := none, output := none, error := none, cellData := [], children := [] }

/-- `IdFactoryWithReuse` (turbo-tasks util): allocates ids from a fixed
range `[start, maxId]` with a free list of returned ids; `get` prefers the
free list over the monotonic counter. -/
structure IdFactory where
  start : Nat
  maxId : Nat
  next : Nat
  free : List Nat
deriving DecidableEq, Repr

/-- `IdFactoryWithReuse::new_with_range(start, max)`. -/
def IdFactory.newWithRange (start maxId : Nat) : IdFactory :=
  { start := start, maxId := maxId, next := start, free := [] }

/-- `get()`: pop the free list if non-empty, otherwise take the counter. -/
def IdFactory.get (f : IdFactory) : Nat × IdFactory :=
  match f.free with
  | id :: rest => (id, { f with free := rest })
  | [] => (f.next, { f with next := f.next + 1 })

/-- `reuse(id)`: push the id back onto the free list. -/
def IdFactory.reuse (f : IdFactory) (id : Nat) : IdFactory :=
  { f with free := id :: f.free }

/-- The set of ids the factory can still hand out: the free list together
with the unconsumed part of the counter range. -/
def IdFactory.available (f : IdFactory) (i : Nat) : Prop :=
  i ∈ f.free ∨ (f.next ≤ i ∧ i ≤ f.maxId)

instance (f : IdFactory) (i : Nat) : Decidable (f.available i) := by
  unfold IdFactory.available; infer_instance

/-- Well-formedness of a factory state: the counter stays in range, and the
free list holds distinct, previously-allocated in-range ids. -/
def IdFactory.wellFormed (f : IdFactory) : Prop :=
  f.start ≤ f.next ∧ f.next ≤ f.maxId + 1 ∧ f.free.Nodup ∧
    ∀ i ∈ f.free, f.start ≤ i ∧ i < f.next

instance (f : IdFactory) : Decidable f.wellFormed := by
  unfold IdFactory.wellFormed; infer_instance

/-- One record of the persistent storage change log
(`CachedDataUpdate`); only the shape needed by the modelled operations. -/
inductive CachedDataUpdate where
  | childAdded (task : Nat) (child : Nat)
deriving DecidableEq, Repr

/-- The whole backend state (`TurboTasksBackend`), plus the observable
interactions with the host notifier (`scheduled`) and the event primitive
(`notified`), recorded as logs so theorems can speak about them. -/
structure State where
  persistedTaskIdFactory : IdFactory
  transientTaskIdFactory : IdFactory
  persistedTaskCacheLog : List (CachedTaskType × Nat)
  taskCache : List (CachedTaskType × Nat)
  transientTasks : List (Nat × TransientTaskType)
  persistedStorageLog : List CachedDataUpdate
  storage : List (Nat × TaskStorage)
  inProgressOperations : Nat
  snapshotRequested : Bool
  suspendedOperations : Finset Nat
  nextEventId : Nat
  scheduled : List Nat
  notified : List Nat
deriving DecidableEq

/-- `TurboTasksBackend::new()` (mod.rs lines 93-113). -/
def State.new : State :=
  { persistedTaskIdFactory := IdFactory.newWithRange 1 (TRANSIENT_TASK_BIT - 1)
    transientTaskIdFactory := IdFactory.newWithRange TRANSIENT_TASK_BIT (2 ^ 32 - 1)
    persistedTaskCacheLog := []
    taskCache := []
    transientTasks := []
    persistedStorageLog := []
    storage := []
    inProgressOperations := 0
    snapshotRequested := false
    suspendedOperations := ∅
    nextEventId := 0
    scheduled := []
    notified := [] }

/-- Storage access: a task with no entry reads as the empty item bag. -/
def State.task (s : State) (taskId : Nat) : TaskStorage :=
  match s.storage.find? (fun p => p.1 = taskId) with
  | some (_, ts) => ts
  | none => TaskStorage.empty

/-- Replace the storage entry of one task (association by shadowing: the
newest binding of a task id is the one `State.task` reads). -/
def State.setTask (s : State) (taskId : Nat) (ts : TaskStorage) : State :=
  { s with storage := (taskId, ts) :: s.storage }

/-- `Event::notify` — record the notification in the observation log. -/
def State.notify (s : State) (event : Nat) : State :=
  { s with notified := s.notified ++ [event] }

/-- `turbo_tasks.schedule(task_id)` — record the host schedule request. -/
def State.schedule (s : State) (taskId : Nat) : State :=
  { s with scheduled := s.scheduled ++ [taskId] }

/-- `BiMap::lookup_forward` on the task cache. -/
def lookupForward (cache : List (CachedTaskType × Nat)) (tt : CachedTaskType) : Option Nat :=
  (cache.find? (fun p => p.1 = tt)).map (fun p => p.2)

/-- `BiMap::lookup_reverse` on the task cache. -/
def lookupReverse (cache : List (CachedTaskType × Nat)) (taskId : Nat) : Option CachedTaskType :=
  (cache.find? (fun p => p.2 = taskId)).map (fun p => p.1)

/-- `BiMap::try_insert`: on collision return the winning id and leave the
losing binding un-installed. -/
def tryInsert (cache : List (CachedTaskType × Nat)) (tt : CachedTaskType) (taskId : Nat) :
    Except Nat (List (CachedTaskType × Nat)) :=
  match lookupForward cache tt with
  | some existing => .error existing
  | none => .ok ((tt, taskId) :: cache)

/-- Assoc-list lookup for the transient-task table (`DashMap::get`). -/
def lookupTransient (tbl : List (Nat × TransientTaskType)) (taskId : Nat) :
    Option TransientTaskType :=
  (tbl.find? (fun p => p.1 = taskId)).map (fun p => p.2)

/-- `task.add(CachedDataItem::InProgress { value })`: `add` inserts and does
not overwrite an existing item of the same key. -/
def TaskStorage.addInProgress (ts : TaskStorage) (v : InProgressState) : TaskStorage :=
  match ts.inProgress with
  | some _ => ts
  | none => { ts with inProgress := some v }

/-- `remove!(task, InProgress)`: remove the item of key `InProgress` (if
any) and return its value. -/
def TaskStorage.removeInProgress (ts : TaskStorage) : Option InProgressState × TaskStorage :=
  (ts.inProgress, { ts with inProgress := none })

/-- Modelled from the spec: `CachedDataItem::new_scheduled` (data.rs, not
part of the backend module): a `Scheduled` in-progress item with fresh
`done_event` and `start_event` latches; created dirty (`clean = false`). -/
def State.newScheduled (s : State) : InProgressState × State :=
  (InProgressState.scheduled false s.nextEventId (s.nextEventId + 1),
   { s with nextEventId := s.nextEventId + 2 })

/-- Modelled from the spec: `ConnectChildOperation::run(parent, child, ctx)`
(operation module, not part of the backend module): adds a `Child{child}`
item under `parent` if absent — recording one storage change-log record for
the mutation — and, when the edge is new and the child is not scheduled or
executing, emits a schedule request via the host notifier.  Idempotent. -/
def connectChild (parent child : Nat) (s : State) : State :=
  let pts := s.task parent
  if child ∈ pts.children then
    s
  else
    let s := s.setTask parent { pts with children := pts.children ++ [child] }
    let s := { s with persistedStorageLog :=
                 s.persistedStorageLog ++ [CachedDataUpdate.childAdded parent child] }
    if (s.task child).inProgress.isSome then s else s.schedule child

/-- `get_or_create_persistent_task` (mod.rs lines 188-216), with the racy
window made explicit: `mid` is the interference of concurrent callers,
applied between this call's id allocation and its `try_insert` (the program
point where the insertion race is decided).  The sequential call is
`mid = id`. -/
def getOrCreatePersistentTaskWith (tt : CachedTaskType) (parentTask : Nat)
    (mid : State → State) (s : State) : Nat × State :=
  match lookupForward s.taskCache tt with
  | some taskId => (taskId, connectChild parentTask taskId s)
  | none =>
    let (taskId, f) := s.persistedTaskIdFactory.get
    let s := mid { s with persistedTaskIdFactory := f }
    match tryInsert s.taskCache tt taskId with
    | .error existingTaskId =>
        -- losing the race: return the fresh id to the factory for reuse
        let s := { s with persistedTaskIdFactory :=
                     s.persistedTaskIdFactory.reuse taskId }
        (existingTaskId, connectChild parentTask existingTaskId s)
    | .ok cache =>
        let s := { s with
                   taskCache := cache
                   persistedTaskCacheLog := s.persistedTaskCacheLog ++ [(tt, taskId)] }
        (taskId, connectChild parentTask taskId s)

/-- `get_or_create_persistent_task` without interference. -/
def getOrCreatePersistentTask (tt : CachedTaskType) (parentTask : Nat) (s : State) :
    Nat × State :=
  getOrCreatePersistentTaskWith tt parentTask id s

/-- `get_task_description` (mod.rs lines 240-246): `lookup_reverse` then
`.expect("Task not found")`; `none` models the panic. -/
def getTaskDescription (s : State) (taskId : Nat) : Option String :=
  (lookupReverse s.taskCache taskId).map CachedTaskType.render

/-- The execution spec returned by `try_start_task_execution`: which
dispatch produced the (span, future) pair. -/
inductive ExecutionSpec where
  | native (fnType : Nat) (this : Option Nat) (arg : Nat)
  | resolveNative (fnType : Nat) (this : Option Nat) (arg : Nat)
  | resolveTrait (traitType : Nat) (methodName : String) (this : Nat) (arg : Nat)
  | transient (t : TransientTaskType)
deriving DecidableEq, Repr

/-- The dispatch of a cached task type (mod.rs lines 285-336). -/
def dispatchOf : CachedTaskType → ExecutionSpec
  | .native fnType this arg => .native fnType this arg
  | .resolveNative fnType this arg => .resolveNative fnType this arg
  | .resolveTrait traitType methodName this arg =>
      .resolveTrait traitType methodName this arg

/-- `try_start_task_execution` (mod.rs lines 260-356).  Mirrors the source:
`remove!(task, InProgress)` removes the item unconditionally; the
`let ... else return None` then only proceeds when the removed value was the
`Scheduled` variant. -/
def tryStartTaskExecution (taskId : Nat) (s : State) : Option ExecutionSpec × State :=
  let (removed, ts) := (s.task taskId).removeInProgress
  match removed with
  | none => (none, s)
  | some (InProgressState.inProgress _ _ _) =>
      -- the item was removed by `remove!` even though the pattern match fails
      (none, s.setTask taskId ts)
  | some (InProgressState.scheduled clean doneEvent startEvent) =>
      let s := s.setTask taskId
        (ts.addInProgress (InProgressState.inProgress clean false doneEvent))
      let s := s.notify startEvent
      match lookupReverse s.taskCache taskId with
      | some tt => (some (dispatchOf tt), s)
      | none =>
        match lookupTransient s.transientTasks taskId with
        | some t => (some (ExecutionSpec.transient t), s)
        | none => (none, s)

/-- `task_execution_completed` (mod.rs lines 367-407).  `none` models the
two panics ("task is not in progress"); otherwise returns the `stale` flag
and the new state: on `stale`, re-insert
`InProgress { clean: false, stale: false, done_event }`; otherwise notify
`done_event`. -/
def taskExecutionCompleted (taskId : Nat) (s : State) : Option (Bool × State) :=
  let (removed, ts) := (s.task taskId).removeInProgress
  match removed with
  | none => none
  | some (InProgressState.scheduled _ _ _) => none
  | some (InProgressState.inProgress _clean stale doneEvent) =>
      let s := s.setTask taskId ts
      if stale then
        some (true, s.setTask taskId
          (ts.addInProgress (InProgressState.inProgress false false doneEvent)))
      else
        some (false, s.notify doneEvent)

/-- Result of the untracked output read. -/
inductive ReadOutputResult where
  | listener (event : Nat)
  | ok (vc : RawVc)
  | err (e : String)
  | panicked
deriving DecidableEq, Repr

/-- `try_read_task_output_untracked` (mod.rs lines 425-461).  `panicked`
models the two `todo!` paths (strongly-consistent reads and recompute). -/
def tryReadTaskOutputUntracked (taskId : Nat) (stronglyConsistent : Bool) (s : State) :
    ReadOutputResult × State :=
  let ts := s.task taskId
  match ts.inProgress with
  | some inProgress => (ReadOutputResult.listener inProgress.doneEvent, s)
  | none =>
    if stronglyConsistent then (ReadOutputResult.panicked, s)
    else
      match ts.output with
      | some (OutputValue.cell task cellId) =>
          (ReadOutputResult.ok (RawVc.taskCell task cellId), s)
      | some (OutputValue.output task) =>
          (ReadOutputResult.ok (RawVc.taskOutput task), s)
      | some OutputValue.error =>
          match ts.error with
          | some e => (ReadOutputResult.err e, s)
          | none => (ReadOutputResult.panicked, s)
      | some OutputValue.panic =>
          match ts.error with
          | some e => (ReadOutputResult.err e, s)
          | none => (ReadOutputResult.panicked, s)
      | none => (ReadOutputResult.panicked, s)

/-- Result of the untracked cell read: typed content or the `todo!` path. -/
inductive ReadCellResult where
  | ok (content : Nat) (typeId : Nat)
  | panicked
deriving DecidableEq, Repr

/-- `try_read_task_cell_untracked` (mod.rs lines 472-486): return the typed
clone of `CellData { cell }` when present, `todo!` otherwise. -/
def tryReadTaskCellUntracked (taskId : Nat) (cell : CellId) (s : State) :
    ReadCellResult × State :=
  let ts := s.task taskId
  match (ts.cellData.find? (fun p => p.1 = cell)).map (fun p => p.2) with
  | some content => (ReadCellResult.ok content cell.typeId, s)
  | none => (ReadCellResult.panicked, s)

/-- `create_transient_task` (mod.rs lines 540-554). -/
def createTransientTask (taskType : TransientTaskType) (s : State) : Nat × State :=
  let (taskId, f) := s.transientTaskIdFactory.get
  let s := { s with transientTaskIdFactory := f }
  let s := { s with transientTasks := (taskId, taskType) :: s.transientTasks }
  let (item, s) := s.newScheduled
  let s := s.setTask taskId ((s.task taskId).addInProgress item)
  let s := s.schedule taskId
  (taskId, s)

/-- `operation_suspend_point` (mod.rs lines 126-149).  `op` is the token of
the suspended operation's resumable description (`Arc<AnyOperation>` under
pointer equality).  The `snapshot_completed.wait_while` is modelled by the
`wait` parameter: the state transformation performed by the snapshotter and
other threads while this operation is parked (the sequential call is
`wait = id`). -/
def operationSuspendPoint (op : Nat) (wait : State → State) (s : State) : State :=
  if s.inProgressOperations &&& SNAPSHOT_REQUESTED_BIT ≠ 0 then
    if s.snapshotRequested then
      let s := { s with
                 suspendedOperations := insert op s.suspendedOperations
                 inProgressOperations := s.inProgressOperations - 1 }
      let s := wait s
      let s := { s with inProgressOperations := (s.inProgressOperations + 1) % 2 ^ 64 }
      { s with suspendedOperations := s.suspendedOperations.erase op }
    else s
  else s

/-! ## Concrete states used by witnesses and counterexamples -/

/-- A task (id 3) whose `InProgress` item was marked stale by an
invalidation during execution. -/
def staleExecState : State :=
  State.new.setTask 3
    { TaskStorage.empty with inProgress := some (InProgressState.inProgress true true 9) }

/-- A task (id 3) currently executing, not stale. -/
def execState : State :=
  State.new.setTask 3
    { TaskStorage.empty with inProgress := some (InProgressState.inProgress true false 9) }

/-- A persistent task (id 3, fingerprint `native 7 none 42`) in the
`Scheduled` state. -/
def scheduledState : State :=
  ({ State.new with taskCache := [(CachedTaskType.native 7 none 42, 3)] } : State).setTask 3
    { TaskStorage.empty with inProgress := some (InProgressState.scheduled true 9 10) }

/-- A settled task (id 3) whose output is `Cell(3, (5, 0))`. -/
def settledState : State :=
  State.new.setTask 3
    { TaskStorage.empty with output := some (OutputValue.cell 3 ⟨5, 0⟩) }

/-- A state whose snapshot-request bit is set with one operation in
flight. -/
def snapshotState : State :=
  { State.new with
    inProgressOperations := SNAPSHOT_REQUESTED_BIT + 1
    snapshotRequested := true }

/-! ## Helper lemmas -/

@[simp] theorem State.task_setTask_self (s : State) (t : Nat) (ts : TaskStorage) :
    (s.setTask t ts).task t = ts := by
  simp [State.setTask, State.task, List.find?_cons]

@[simp] theorem State.taskCache_setTask (s : State) (t : Nat) (ts : TaskStorage) :
    (s.setTask t ts).taskCache = s.taskCache := rfl

@[simp] theorem State.transientTasks_setTask (s : State) (t : Nat) (ts : TaskStorage) :
    (s.setTask t ts).transientTasks = s.transientTasks := rfl

@[simp] theorem State.notified_setTask (s : State) (t : Nat) (ts : TaskStorage) :
    (s.setTask t ts).notified = s.notified := rfl

@[simp] theorem State.scheduled_setTask (s : State) (t : Nat) (ts : TaskStorage) :
    (s.setTask t ts).scheduled = s.scheduled := rfl

@[simp] theorem State.cacheLog_setTask (s : State) (t : Nat) (ts : TaskStorage) :
    (s.setTask t ts).persistedTaskCacheLog = s.persistedTaskCacheLog := rfl

@[simp] theorem State.storageLog_setTask (s : State) (t : Nat) (ts : TaskStorage) :
    (s.setTask t ts).persistedStorageLog = s.persistedStorageLog := rfl

@[simp] theorem State.taskCache_notify (s : State) (e : Nat) :
    (s.notify e).taskCache = s.taskCache := rfl

@[simp] theorem State.transientTasks_notify (s : State) (e : Nat) :
    (s.notify e).transientTasks = s.transientTasks := rfl

@[simp] theorem State.task_notify (s : State) (e t : Nat) :
    (s.notify e).task t = s.task t := rfl

@[simp] theorem State.notified_notify (s : State) (e : Nat) :
    (s.notify e).notified = s.notified ++ [e] := rfl

@[simp] theorem State.scheduled_notify (s : State) (e : Nat) :
    (s.notify e).scheduled = s.scheduled := rfl

@[simp] theorem State.task_schedule (s : State) (x t : Nat) :
    (s.schedule x).task t = s.task t := rfl

@[simp] theorem State.transientTasks_schedule (s : State) (x : Nat) :
    (s.schedule x).transientTasks = s.transientTasks := rfl

@[simp] theorem State.notified_schedule (s : State) (x : Nat) :
    (s.schedule x).notified = s.notified := rfl

@[simp] theorem State.scheduled_schedule (s : State) (x : Nat) :
    (s.schedule x).scheduled = s.scheduled ++ [x] := rfl

@[simp] theorem State.cacheLog_schedule (s : State) (x : Nat) :
    (s.schedule x).persistedTaskCacheLog = s.persistedTaskCacheLog := rfl

@[simp] theorem State.storageLog_schedule (s : State) (x : Nat) :
    (s.schedule x).persistedStorageLog = s.persistedStorageLog := rfl

theorem connectChild_taskCache (p c : Nat) (s : State) :
    (connectChild p c s).taskCache = s.taskCache := by
  unfold connectChild State.setTask State.schedule
  dsimp only
  split_ifs <;> rfl

theorem connectChild_cacheLog (p c : Nat) (s : State) :
    (connectChild p c s).persistedTaskCacheLog = s.persistedTaskCacheLog := by
  unfold connectChild State.setTask State.schedule
  dsimp only
  split_ifs <;> rfl

theorem connectChild_factory (p c : Nat) (s : State) :
    (connectChild p c s).persistedTaskIdFactory = s.persistedTaskIdFactory := by
  unfold connectChild State.setTask State.schedule
  dsimp only
  split_ifs <;> rfl

theorem IdFactory.available_get (f : IdFactory) (hwf : f.wellFormed) :
    ∀ i, (f.get.2).available i ↔ f.available i ∧ i ≠ f.get.1 := by
  obtain ⟨hsn, hnm, hnd, hfr⟩ := hwf
  intro i
  cases hf : f.free with
  | nil =>
    simp only [IdFactory.get, hf, IdFactory.available, List.not_mem_nil, false_or]
    constructor
    · intro hi; exact ⟨by omega, by omega⟩
    · intro ⟨hi, hne⟩; omega
  | cons h t =>
    have hnd' : h ∉ t := by rw [hf] at hnd; exact (List.nodup_cons.mp hnd).1
    have hh : h < f.next := (hfr h (by rw [hf]; exact List.mem_cons_self h t)).2
    simp only [IdFactory.get, hf, IdFactory.available, List.mem_cons]
    constructor
    · rintro (hi | hi)
      · exact ⟨Or.inl (Or.inr hi), fun he => hnd' (he ▸ hi)⟩
      · exact ⟨Or.inr hi, by omega⟩
    · rintro ⟨(he | hi) | hi, hne⟩
      · exact absurd he hne
      · exact Or.inl hi
      · exact Or.inr hi

theorem IdFactory.available_reuse_get (f : IdFactory) (hwf : f.wellFormed)
    (hexh : f.free = [] → f.next ≤ f.maxId) :
    ∀ i, ((f.get.2).reuse f.get.1).available i ↔ f.available i := by
  obtain ⟨hsn, hnm, hnd, hfr⟩ := hwf
  intro i
  cases hf : f.free with
  | nil =>
    have hle := hexh hf
    simp only [IdFactory.get, hf, IdFactory.reuse, IdFactory.available, List.mem_cons,
      List.not_mem_nil, false_or, or_false]
    omega
  | cons h t =>
    simp [IdFactory.get, hf, IdFactory.reuse, IdFactory.available, List.mem_cons]

/-! ## Claim theorems -/

/-- Shared behaviour of `task_execution_completed` on a task holding an
executing `InProgress` item (both the stale and the non-stale branch). -/
theorem taskExecutionCompleted_run (taskId : Nat) (s : State)
    (clean stale : Bool) (doneEvent : Nat)
    (h : (s.task taskId).inProgress = some (InProgressState.inProgress clean stale doneEvent)) :
    ∃ s', taskExecutionCompleted taskId s = some (stale, s') ∧
      (stale = true →
        (s'.task taskId).inProgress = some (InProgressState.inProgress false false doneEvent) ∧
        s'.notified = s.notified) ∧
      (stale = false →
        (s'.task taskId).inProgress = none ∧
        s'.notified = s.notified ++ [doneEvent]) := by
  cases stale with
  | true =>
    refine ⟨(s.setTask taskId { s.task taskId with inProgress := none }).setTask taskId
      (({ s.task taskId with inProgress := none } : TaskStorage).addInProgress
        (InProgressState.inProgress false false doneEvent)), ?_, ?_, ?_⟩
    · simp [taskExecutionCompleted, TaskStorage.removeInProgress, h]
    · intro _
      constructor
      · rw [State.task_setTask_self]
        simp [TaskStorage.addInProgress]
      · simp [State.setTask]
    · intro hc; exact absurd hc (by simp)
  | false =>
    refine ⟨(s.setTask taskId { s.task taskId with inProgress := none }).notify doneEvent, ?_, ?_, ?_⟩
    · simp [taskExecutionCompleted, TaskStorage.removeInProgress, h]
    · intro hc; exact absurd hc (by simp)
    · intro _
      constructor
      · have : ((s.setTask taskId { s.task taskId with inProgress := none }).notify
            doneEvent).task taskId =
            (s.setTask taskId { s.task taskId with inProgress := none }).task taskId := rfl
        rw [this, State.task_setTask_self]
      · simp [State.notify, State.setTask]

/-- C3: `task_execution_completed`, called on a task holding an
`InProgress { clean, stale, done_event }` item, removes that item; if
`stale` it re-inserts `InProgress { clean := false, stale := false }`
carrying the same `done_event` (notifying nobody, so existing listeners
keep waiting) and returns `true`; if not `stale` it notifies all listeners
of `done_event` and returns `false`, leaving no `InProgress` item. -/
theorem task_execution_completed_spec (taskId : Nat) (s : State)
    (clean stale : Bool) (doneEvent : Nat)
    (h : (s.task taskId).inProgress = some (InProgressState.inProgress clean stale doneEvent)) :
    ∃ s', taskExecutionCompleted taskId s = some (stale, s') ∧
      (stale = true →
        (s'.task taskId).inProgress = some (InProgressState.inProgress false false doneEvent) ∧
        s'.notified = s.notified) ∧
      (stale = false →
        (s'.task taskId).inProgress = none ∧
        s'.notified = s.notified ++ [doneEvent]) :=
  taskExecutionCompleted_run taskId s clean stale doneEvent h

/-- C3 witness: the theorem applied to a concrete stale-executing task. -/
theorem task_execution_completed_spec_witness :
    (staleExecState.task 3).inProgress =
        some (InProgressState.inProgress true true 9) ∧
      ∃ s', taskExecutionCompleted 3 staleExecState = some (true, s') ∧
        (true = true →
          (s'.task 3).inProgress = some (InProgressState.inProgress false false 9) ∧
          s'.notified = staleExecState.notified) ∧
        (true = false →
          (s'.task 3).inProgress = none ∧
          s'.notified = staleExecState.notified ++ [9]) :=
  ⟨by decide, task_execution_completed_spec 3 staleExecState true true 9 (by decide)⟩

/-- C2 counterexample: for a task whose `InProgress` item is stale,
`task_execution_completed` returns `true` but the re-inserted item is the
executing `InProgress` variant, not the `Scheduled` variant — the task is
not back to `Scheduled`. -/
theorem task_execution_completed_stale_cex :
    (taskExecutionCompleted 3 staleExecState).map
        (fun p => (p.1, (p.2.task 3).inProgress.map InProgressState.isScheduled)) =
      some (true, some false) := by decide

/-- C2 (amended): for any task whose `InProgress` item was marked stale
during execution, `task_execution_completed` returns `true` and afterwards
the task's item is `InProgress { clean := false, stale := false }` carrying
the same `done_event` (awaiting a restart by the host), not a `Scheduled`
item. -/
theorem task_execution_completed_stale_restart (taskId : Nat) (s : State)
    (clean : Bool) (doneEvent : Nat)
    (h : (s.task taskId).inProgress = some (InProgressState.inProgress clean true doneEvent)) :
    ∃ s', taskExecutionCompleted taskId s = some (true, s') ∧
      (s'.task taskId).inProgress = some (InProgressState.inProgress false false doneEvent) ∧
      (s'.task taskId).inProgress.map InProgressState.isScheduled = some false := by
  obtain ⟨s', hrun, hstale, -⟩ := taskExecutionCompleted_run taskId s clean true doneEvent h
  obtain ⟨hitem, -⟩ := hstale rfl
  exact ⟨s', hrun, hitem, by rw [hitem]; rfl⟩

/-- C2 witness: the amended theorem applied to a concrete stale task. -/
theorem task_execution_completed_stale_restart_witness :
    (staleExecState.task 3).inProgress =
        some (InProgressState.inProgress true true 9) ∧
      ∃ s', taskExecutionCompleted 3 staleExecState = some (true, s') ∧
        (s'.task 3).inProgress = some (InProgressState.inProgress false false 9) ∧
        (s'.task 3).inProgress.map InProgressState.isScheduled = some false :=
  ⟨by decide, task_execution_completed_stale_restart 3 staleExecState true 9 (by decide)⟩

/-- C4 counterexample: `try_start_task_execution` on a task whose
`InProgress` item is the executing variant returns `None` but is not a
no-op: `remove!(task, InProgress)` has already removed the item (dropping
its `done_event`) when the `let ... else return None` fails. -/
theorem try_start_task_execution_not_noop_cex :
    (tryStartTaskExecution 3 execState).1 = none ∧
      (execState.task 3).inProgress.isSome = true ∧
      ((tryStartTaskExecution 3 execState).2.task 3).inProgress = none ∧
      (tryStartTaskExecution 3 execState).2 ≠ execState := by decide

/-- C4 (amended): `try_start_task_execution` returns `None` and leaves the
state unchanged when the task has no `InProgress` item; when the item is
the executing `InProgress` variant it still returns `None` but removes the
item; when the item is `Scheduled` it replaces it with
`InProgress { stale := false }` preserving `clean` and `done_event`,
notifies `start_event`, and returns `Some` of the execution spec built from
the fingerprint dispatch (persistent task) or the transient spec (transient
task). -/
theorem try_start_task_execution_spec (taskId : Nat) (s : State) :
    ((s.task taskId).inProgress = none → tryStartTaskExecution taskId s = (none, s)) ∧
    (∀ clean stale doneEvent,
      (s.task taskId).inProgress = some (InProgressState.inProgress clean stale doneEvent) →
      (tryStartTaskExecution taskId s).1 = none ∧
      ((tryStartTaskExecution taskId s).2.task taskId).inProgress = none) ∧
    (∀ clean doneEvent startEvent,
      (s.task taskId).inProgress = some (InProgressState.scheduled clean doneEvent startEvent) →
      ((tryStartTaskExecution taskId s).2.task taskId).inProgress =
          some (InProgressState.inProgress clean false doneEvent) ∧
      (tryStartTaskExecution taskId s).2.notified = s.notified ++ [startEvent] ∧
      (∀ tt, lookupReverse s.taskCache taskId = some tt →
        (tryStartTaskExecution taskId s).1 = some (dispatchOf tt)) ∧
      (lookupReverse s.taskCache taskId = none →
        ∀ t, lookupTransient s.transientTasks taskId = some t →
          (tryStartTaskExecution taskId s).1 = some (ExecutionSpec.transient t))) := by
  refine ⟨?_, ?_, ?_⟩
  · intro h
    simp [tryStartTaskExecution, TaskStorage.removeInProgress, h]
  · intro clean stale doneEvent h
    constructor
    · simp [tryStartTaskExecution, TaskStorage.removeInProgress, h]
    · simp only [tryStartTaskExecution, TaskStorage.removeInProgress, h]
      rw [State.task_setTask_self]
  · intro clean doneEvent startEvent h
    simp only [tryStartTaskExecution, TaskStorage.removeInProgress, h, State.taskCache_setTask,
      State.taskCache_notify, State.transientTasks_setTask, State.transientTasks_notify]
    cases hlr : lookupReverse s.taskCache taskId with
    | some tt =>
      refine ⟨?_, ?_, ?_, ?_⟩
      · simp [TaskStorage.addInProgress]
      · simp
      · intro tt' htt'
        cases htt'
        rfl
      · intro hnone
        cases hnone
    | none =>
      cases hlt : lookupTransient s.transientTasks taskId with
      | some t =>
        refine ⟨?_, ?_, ?_, ?_⟩
        · simp [TaskStorage.addInProgress]
        · simp
        · intro tt' htt'
          cases htt'
        · intro _ t' ht'
          cases ht'
          rfl
      | none =>
        refine ⟨?_, ?_, ?_, ?_⟩
        · simp [TaskStorage.addInProgress]
        · simp
        · intro tt' htt'
          cases htt'
        · intro _ t' ht'
          cases ht'

/-- C4 witness: the amended theorem applied to a concrete scheduled
persistent task. -/
theorem try_start_task_execution_spec_witness :
    (scheduledState.task 3).inProgress =
        some (InProgressState.scheduled true 9 10) ∧
      lookupReverse scheduledState.taskCache 3 = some (CachedTaskType.native 7 none 42) ∧
      ((tryStartTaskExecution 3 scheduledState).2.task 3).inProgress =
        some (InProgressState.inProgress true false 9) ∧
      (tryStartTaskExecution 3 scheduledState).1 =
        some (dispatchOf (CachedTaskType.native 7 none 42)) := by
  have h := (try_start_task_execution_spec 3 scheduledState).2.2 true 9 10 (by decide)
  exact ⟨by decide, by decide, h.1, h.2.2.1 (CachedTaskType.native 7 none 42) (by decide)⟩

/-- C5: `try_read_task_output_untracked(task, false)`: with an `InProgress`
item (either variant) it returns a listener on that item's `done_event`;
otherwise with an `Output` item it returns `TaskCell(t, c)` for
`Output = Cell`, `TaskOutput(t)` for `Output = Output`, and the cloned
companion `Error` item as the error for `Output = Error | Panic`. -/
theorem try_read_task_output_untracked_spec (taskId : Nat) (s : State) :
    (∀ ip, (s.task taskId).inProgress = some ip →
      tryReadTaskOutputUntracked taskId false s =
        (ReadOutputResult.listener ip.doneEvent, s)) ∧
    ((s.task taskId).inProgress = none →
      (∀ t c, (s.task taskId).output = some (OutputValue.cell t c) →
        tryReadTaskOutputUntracked taskId false s =
          (ReadOutputResult.ok (RawVc.taskCell t c), s)) ∧
      (∀ t, (s.task taskId).output = some (OutputValue.output t) →
        tryReadTaskOutputUntracked taskId false s =
          (ReadOutputResult.ok (RawVc.taskOutput t), s)) ∧
      (∀ e, ((s.task taskId).output = some OutputValue.error ∨
             (s.task taskId).output = some OutputValue.panic) →
        (s.task taskId).error = some e →
        tryReadTaskOutputUntracked taskId false s = (ReadOutputResult.err e, s))) := by
  refine ⟨?_, ?_⟩
  · intro ip hip
    simp [tryReadTaskOutputUntracked, hip]
  · intro hnone
    refine ⟨?_, ?_, ?_⟩
    · intro t c hout
      simp [tryReadTaskOutputUntracked, hnone, hout]
    · intro t hout
      simp [tryReadTaskOutputUntracked, hnone, hout]
    · intro e hout herr
      rcases hout with hout | hout <;> simp [tryReadTaskOutputUntracked, hnone, hout, herr]

/-- C5 witness: reading a settled task whose output is `Cell(3, (5, 0))`. -/
theorem try_read_task_output_untracked_spec_witness :
    (settledState.task 3).inProgress = none ∧
      tryReadTaskOutputUntracked 3 false settledState =
        (ReadOutputResult.ok (RawVc.taskCell 3 ⟨5, 0⟩), settledState) :=
  ⟨by decide,
    ((try_read_task_output_untracked_spec 3 settledState).2 (by decide)).1 3 ⟨5, 0⟩ (by decide)⟩

/-- C6: `try_read_task_output_untracked` and `try_read_task_cell_untracked`
are non-mutating: whatever they return, the whole backend state — storage,
change logs, fingerprint map, factories, everything — is exactly the state
before the call. -/
theorem untracked_reads_non_mutating (taskId : Nat) (cell : CellId) (b : Bool) (s : State) :
    (tryReadTaskOutputUntracked taskId b s).2 = s ∧
    (tryReadTaskCellUntracked taskId cell s).2 = s := by
  constructor
  · unfold tryReadTaskOutputUntracked
    dsimp only
    repeat' split
    all_goals rfl
  · unfold tryReadTaskCellUntracked
    dsimp only
    repeat' split
    all_goals rfl

/-- C7: `operation_suspend_point` leaves the in-progress counter's low bits
and the suspended-operations set equal to their values at entry: when the
`SNAPSHOT_REQUESTED` bit is not observed the call changes nothing at all;
when the operation suspends, the decrement/insert before the wait are
exactly undone by the increment/erase after it, for any snapshotter
behaviour during the wait that preserves the counter's low bits and the
suspended set. -/
theorem operation_suspend_point_frame (op : Nat) (wait : State → State) (s : State)
    (hop : op ∉ s.suspendedOperations)
    (hcnt : ∀ t, (wait t).inProgressOperations % 2 ^ 63 = t.inProgressOperations % 2 ^ 63)
    (hsus : ∀ t, (wait t).suspendedOperations = t.suspendedOperations) :
    (s.inProgressOperations &&& SNAPSHOT_REQUESTED_BIT = 0 →
      operationSuspendPoint op wait s = s) ∧
    (operationSuspendPoint op wait s).inProgressOperations % 2 ^ 63 =
      s.inProgressOperations % 2 ^ 63 ∧
    (operationSuspendPoint op wait s).suspendedOperations = s.suspendedOperations := by
  by_cases hbit : s.inProgressOperations &&& SNAPSHOT_REQUESTED_BIT = 0
  · simp [operationSuspendPoint, hbit]
  · by_cases hreq : s.snapshotRequested = true
    · have hc : s.inProgressOperations ≠ 0 := by
        intro h0
        apply hbit
        rw [h0]
        simp
      refine ⟨fun h => absurd h hbit, ?_, ?_⟩
      · have hrun : (operationSuspendPoint op wait s).inProgressOperations =
            ((wait { s with
              suspendedOperations := insert op s.suspendedOperations
              inProgressOperations := s.inProgressOperations - 1 }).inProgressOperations + 1)
              % 2 ^ 64 := by
          simp [operationSuspendPoint, hbit, hreq]
        rw [hrun]
        have h1 := hcnt { s with
          suspendedOperations := insert op s.suspendedOperations
          inProgressOperations := s.inProgressOperations - 1 }
        dsimp only at h1
        omega
      · have hrun : (operationSuspendPoint op wait s).suspendedOperations =
            ((wait { s with
              suspendedOperations := insert op s.suspendedOperations
              inProgressOperations := s.inProgressOperations - 1 }).suspendedOperations).erase
              op := by
          simp [operationSuspendPoint, hbit, hreq]
        rw [hrun]
        rw [hsus { s with
          suspendedOperations := insert op s.suspendedOperations
          inProgressOperations := s.inProgressOperations - 1 }]
        dsimp only
        rw [Finset.erase_insert hop]
    · simp [operationSuspendPoint, hbit, hreq]

/-- C7 witness: the frame theorem applied at a state with the snapshot bit
set, one operation in flight, and a trivial wait. -/
theorem operation_suspend_point_frame_witness :
    (7 ∉ snapshotState.suspendedOperations) ∧
      ((snapshotState.inProgressOperations &&& SNAPSHOT_REQUESTED_BIT = 0 →
        operationSuspendPoint 7 id snapshotState = snapshotState) ∧
      (operationSuspendPoint 7 id snapshotState).inProgressOperations % 2 ^ 63 =
        snapshotState.inProgressOperations % 2 ^ 63 ∧
      (operationSuspendPoint 7 id snapshotState).suspendedOperations =
        snapshotState.suspendedOperations) :=
  ⟨by decide,
    operation_suspend_point_frame 7 id snapshotState (by decide)
      (fun t => rfl) (fun t => rfl)⟩

/-- C1: every `get_or_create_persistent_task(f, parent)` call returns the
id associated with `f` in the task cache after the call; a cache hit
consumes nothing from the id factory; a call that loses the `try_insert`
race (concurrent interference `mid` installed `f` between this call's
allocation and its insert) returns the winning id and pushes the freshly
allocated losing id back onto the factory's free list, leaving the set of
available ids exactly as at entry; the call that installs `f` consumes
exactly one id (the returned one) from the available set.  `mid` is assumed
not to touch this call's factory (each concurrent call accounts for its own
allocation). -/
theorem get_or_create_persistent_task_identity (tt : CachedTaskType) (parentTask : Nat)
    (mid : State → State) (s : State)
    (hwf : s.persistedTaskIdFactory.wellFormed)
    (hexh : s.persistedTaskIdFactory.free = [] →
      s.persistedTaskIdFactory.next ≤ s.persistedTaskIdFactory.maxId)
    (hmid : ∀ t, (mid t).persistedTaskIdFactory = t.persistedTaskIdFactory) :
    lookupForward (getOrCreatePersistentTaskWith tt parentTask mid s).2.taskCache tt =
      some (getOrCreatePersistentTaskWith tt parentTask mid s).1 ∧
    (∀ i, lookupForward s.taskCache tt = some i →
      (getOrCreatePersistentTaskWith tt parentTask mid s).1 = i ∧
      (getOrCreatePersistentTaskWith tt parentTask mid s).2.persistedTaskIdFactory =
        s.persistedTaskIdFactory) ∧
    (lookupForward s.taskCache tt = none →
      ∀ j, lookupForward (mid { s with persistedTaskIdFactory :=
            s.persistedTaskIdFactory.get.2 }).taskCache tt = some j →
        (getOrCreatePersistentTaskWith tt parentTask mid s).1 = j ∧
        s.persistedTaskIdFactory.get.1 ∈
          (getOrCreatePersistentTaskWith tt parentTask mid s).2.persistedTaskIdFactory.free ∧
        (∀ i,
          (getOrCreatePersistentTaskWith tt parentTask mid s).2.persistedTaskIdFactory.available
              i ↔
            s.persistedTaskIdFactory.available i)) ∧
    (lookupForward s.taskCache tt = none →
      lookupForward (mid { s with persistedTaskIdFactory :=
          s.persistedTaskIdFactory.get.2 }).taskCache tt = none →
      (getOrCreatePersistentTaskWith tt parentTask mid s).1 =
        s.persistedTaskIdFactory.get.1 ∧
      (∀ i,
        (getOrCreatePersistentTaskWith tt parentTask mid s).2.persistedTaskIdFactory.available
            i ↔
          (s.persistedTaskIdFactory.available i ∧
            i ≠ s.persistedTaskIdFactory.get.1))) := by
  cases hl : lookupForward s.taskCache tt with
  | some i0 =>
    have hdef : getOrCreatePersistentTaskWith tt parentTask mid s =
        (i0, connectChild parentTask i0 s) := by
      simp [getOrCreatePersistentTaskWith, hl]
    refine ⟨?_, ?_, ?_, ?_⟩
    · rw [hdef]
      dsimp only
      rw [connectChild_taskCache, hl]
    · intro i hi
      cases hi
      rw [hdef]
      exact ⟨rfl, connectChild_factory ..⟩
    · intro h
      cases h
    · intro h
      cases h
  | none =>
    rcases hget : s.persistedTaskIdFactory.get with ⟨aId, f⟩
    dsimp only
    cases hm : lookupForward (mid { s with persistedTaskIdFactory := f }).taskCache tt with
    | some j0 =>
      have hdef : getOrCreatePersistentTaskWith tt parentTask mid s =
          (j0, connectChild parentTask j0
            { mid { s with persistedTaskIdFactory := f } with
              persistedTaskIdFactory :=
                (mid { s with persistedTaskIdFactory := f }).persistedTaskIdFactory.reuse
                  aId }) := by
        simp [getOrCreatePersistentTaskWith, hl, hget, tryInsert, hm]
      refine ⟨?_, ?_, ?_, ?_⟩
      · rw [hdef]
        dsimp only
        rw [connectChild_taskCache]
        exact hm
      · intro i hi
        cases hi
      · intro _ j hj
        cases hj
        refine ⟨by rw [hdef], ?_, ?_⟩
        · rw [hdef]
          dsimp only
          rw [connectChild_factory]
          exact List.mem_cons_self aId _
        · intro i
          rw [hdef]
          dsimp only
          rw [connectChild_factory]
          have hav := IdFactory.available_reuse_get s.persistedTaskIdFactory hwf hexh
          rw [hget] at hav
          dsimp only at hav
          rw [hmid { s with persistedTaskIdFactory := f }]
          exact hav i
      · intro _ h
        cases h
    | none =>
      have hdef : getOrCreatePersistentTaskWith tt parentTask mid s =
          (aId, connectChild parentTask aId
            { mid { s with persistedTaskIdFactory := f } with
              taskCache :=
                (tt, aId) :: (mid { s with persistedTaskIdFactory := f }).taskCache
              persistedTaskCacheLog :=
                (mid { s with persistedTaskIdFactory := f }).persistedTaskCacheLog ++
                  [(tt, aId)] }) := by
        simp [getOrCreatePersistentTaskWith, hl, hget, tryInsert, hm]
      refine ⟨?_, ?_, ?_, ?_⟩
      · rw [hdef]
        dsimp only
        rw [connectChild_taskCache]
        simp [lookupForward, List.find?_cons]
      · intro i hi
        cases hi
      · intro _ j hj
        cases hj
      · intro _ _
        refine ⟨by rw [hdef], ?_⟩
        intro i
        rw [hdef]
        dsimp only
        rw [connectChild_factory]
        have hav := IdFactory.available_get s.persistedTaskIdFactory hwf
        rw [hget] at hav
        dsimp only at hav
        rw [hmid { s with persistedTaskIdFactory := f }]
        exact hav i

/-- C1 witness: the identity theorem applied to a fresh backend and a
concrete fingerprint, with no interference. -/
theorem get_or_create_persistent_task_identity_witness :
    lookupForward
        (getOrCreatePersistentTaskWith (CachedTaskType.native 7 none 42) 1 id
          State.new).2.taskCache (CachedTaskType.native 7 none 42) =
      some (getOrCreatePersistentTaskWith (CachedTaskType.native 7 none 42) 1 id State.new).1 :=
  (get_or_create_persistent_task_identity (CachedTaskType.native 7 none 42) 1 id State.new
    (by decide) (by decide) (fun t => rfl)).1

/-- C8: per distinct fingerprint, only the `try_insert` winner appends one
`(fingerprint, id)` record to the persistent task-cache log: a cache hit
appends none, a call that loses the race against interference `mid`
appends none, and the winning call appends exactly one.  `mid` is assumed
not to touch this call's view of the log (each concurrent call accounts
for its own append). -/
theorem get_or_create_persistent_task_log (tt : CachedTaskType) (parentTask : Nat)
    (mid : State → State) (s : State)
    (hmidlog : ∀ t, (mid t).persistedTaskCacheLog = t.persistedTaskCacheLog) :
    (∀ i, lookupForward s.taskCache tt = some i →
      (getOrCreatePersistentTaskWith tt parentTask mid s).2.persistedTaskCacheLog =
        s.persistedTaskCacheLog) ∧
    (lookupForward s.taskCache tt = none →
      ∀ j, lookupForward (mid { s with persistedTaskIdFactory :=
            s.persistedTaskIdFactory.get.2 }).taskCache tt = some j →
        (getOrCreatePersistentTaskWith tt parentTask mid s).2.persistedTaskCacheLog =
          s.persistedTaskCacheLog) ∧
    (lookupForward s.taskCache tt = none →
      lookupForward (mid { s with persistedTaskIdFactory :=
          s.persistedTaskIdFactory.get.2 }).taskCache tt = none →
      (getOrCreatePersistentTaskWith tt parentTask mid s).2.persistedTaskCacheLog =
        s.persistedTaskCacheLog ++ [(tt, s.persistedTaskIdFactory.get.1)]) := by
  cases hl : lookupForward s.taskCache tt with
  | some i0 =>
    have hdef : getOrCreatePersistentTaskWith tt parentTask mid s =
        (i0, connectChild parentTask i0 s) := by
      simp [getOrCreatePersistentTaskWith, hl]
    refine ⟨?_, ?_, ?_⟩
    · intro i hi
      rw [hdef]
      dsimp only
      rw [connectChild_cacheLog]
    · intro h
      cases h
    · intro h
      cases h
  | none =>
    rcases hget : s.persistedTaskIdFactory.get with ⟨aId, f⟩
    dsimp only
    cases hm : lookupForward (mid { s with persistedTaskIdFactory := f }).taskCache tt with
    | some j0 =>
      have hdef : getOrCreatePersistentTaskWith tt parentTask mid s =
          (j0, connectChild parentTask j0
            { mid { s with persistedTaskIdFactory := f } with
              persistedTaskIdFactory :=
                (mid { s with persistedTaskIdFactory := f }).persistedTaskIdFactory.reuse
                  aId }) := by
        simp [getOrCreatePersistentTaskWith, hl, hget, tryInsert, hm]
      refine ⟨?_, ?_, ?_⟩
      · intro i hi
        cases hi
      · intro _ j hj
        rw [hdef]
        dsimp only
        rw [connectChild_cacheLog]
        exact hmidlog { s with persistedTaskIdFactory := f }
      · intro _ h
        cases h
    | none =>
      have hdef : getOrCreatePersistentTaskWith tt parentTask mid s =
          (aId, connectChild parentTask aId
            { mid { s with persistedTaskIdFactory := f } with
              taskCache :=
                (tt, aId) :: (mid { s with persistedTaskIdFactory := f }).taskCache
              persistedTaskCacheLog :=
                (mid { s with persistedTaskIdFactory := f }).persistedTaskCacheLog ++
                  [(tt, aId)] }) := by
        simp [getOrCreatePersistentTaskWith, hl, hget, tryInsert, hm]
      refine ⟨?_, ?_, ?_⟩
      · intro i hi
        cases hi
      · intro _ j hj
        cases hj
      · intro _ _
        rw [hdef]
        dsimp only
        rw [connectChild_cacheLog]
        dsimp only
        rw [hmidlog { s with persistedTaskIdFactory := f }]

/-- C8 witness: the log theorem applied to a fresh backend and a concrete
fingerprint: the winning call appends exactly one record. -/
theorem get_or_create_persistent_task_log_witness :
    lookupForward State.new.taskCache (CachedTaskType.native 7 none 42) = none ∧
      (getOrCreatePersistentTaskWith (CachedTaskType.native 7 none 42) 1 id
          State.new).2.persistedTaskCacheLog =
        State.new.persistedTaskCacheLog ++
          [(CachedTaskType.native 7 none 42, State.new.persistedTaskIdFactory.get.1)] :=
  ⟨by decide,
    (get_or_create_persistent_task_log (CachedTaskType.native 7 none 42) 1 id State.new
      (fun t => rfl)).2.2 (by decide) (by decide)⟩

theorem IdFactory.get_fst_range (f : IdFactory) (hwf : f.wellFormed)
    (hexh : f.free = [] → f.next ≤ f.maxId) :
    f.start ≤ f.get.1 ∧ f.get.1 ≤ f.maxId := by
  obtain ⟨hsn, hnm, hnd, hfr⟩ := hwf
  cases hf : f.free with
  | nil =>
    have := hexh hf
    simp only [IdFactory.get, hf]
    omega
  | cons h t =>
    have := hfr h (by rw [hf]; exact List.mem_cons_self h t)
    simp only [IdFactory.get, hf]
    omega

theorem testBit31_of_range (n : Nat) (h1 : 2 ^ 31 ≤ n) (h2 : n ≤ 2 ^ 32 - 1) :
    Nat.testBit n 31 = true := by
  rw [Nat.testBit_to_div_mod]
  simp only [decide_eq_true_eq]
  omega

theorem State.task_eq_of_storage (s₁ s₂ : State) (t : Nat) (h : s₁.storage = s₂.storage) :
    s₁.task t = s₂.task t := by
  unfold State.task
  rw [h]

/-- C9: `create_transient_task(spec)` allocates an id with the
`TRANSIENT_TASK_BIT` discriminant set, stores the spec in the
transient-task table under that id, adds a `Scheduled` `InProgress` item to
the task's storage, calls the host notifier's `schedule` with that id,
returns the id, and appends nothing to the persistent task-cache log or the
persistent storage log. -/
theorem create_transient_task_spec (spec : TransientTaskType) (s : State)
    (hstart : s.transientTaskIdFactory.start = TRANSIENT_TASK_BIT)
    (hmax : s.transientTaskIdFactory.maxId = 2 ^ 32 - 1)
    (hwf : s.transientTaskIdFactory.wellFormed)
    (hexh : s.transientTaskIdFactory.free = [] →
      s.transientTaskIdFactory.next ≤ s.transientTaskIdFactory.maxId)
    (hfresh : (s.task s.transientTaskIdFactory.get.1).inProgress = none) :
    Nat.testBit (createTransientTask spec s).1 31 = true ∧
    lookupTransient (createTransientTask spec s).2.transientTasks
        (createTransientTask spec s).1 = some spec ∧
    ((createTransientTask spec s).2.task (createTransientTask spec s).1).inProgress =
      some (InProgressState.scheduled false s.nextEventId (s.nextEventId + 1)) ∧
    (createTransientTask spec s).2.scheduled =
      s.scheduled ++ [(createTransientTask spec s).1] ∧
    (createTransientTask spec s).2.persistedTaskCacheLog = s.persistedTaskCacheLog ∧
    (createTransientTask spec s).2.persistedStorageLog = s.persistedStorageLog := by
  have hrange := IdFactory.get_fst_range s.transientTaskIdFactory hwf hexh
  rw [hstart, hmax] at hrange
  rcases hget : s.transientTaskIdFactory.get with ⟨aId, f⟩
  rw [hget] at hrange
  dsimp only at hrange ⊢
  rw [hget] at hfresh
  dsimp only at hfresh
  have hdef : createTransientTask spec s =
      (aId,
        (({ s with
            transientTaskIdFactory := f
            transientTasks := (aId, spec) :: s.transientTasks
            nextEventId := s.nextEventId + 2 } : State).setTask aId
          ((({ s with
              transientTaskIdFactory := f
              transientTasks := (aId, spec) :: s.transientTasks
              nextEventId := s.nextEventId + 2 } : State).task aId).addInProgress
            (InProgressState.scheduled false s.nextEventId (s.nextEventId + 1)))).schedule
          aId) := by
    simp [createTransientTask, hget, State.newScheduled]
  have htask : ({ s with
      transientTaskIdFactory := f
      transientTasks := (aId, spec) :: s.transientTasks
      nextEventId := s.nextEventId + 2 } : State).task aId = s.task aId :=
    State.task_eq_of_storage _ _ aId rfl
  refine ⟨?_, ?_, ?_, ?_, ?_, ?_⟩
  · rw [hdef]
    exact testBit31_of_range aId hrange.1 hrange.2
  · rw [hdef]
    dsimp only
    simp [lookupTransient, List.find?_cons]
  · rw [hdef]
    dsimp only
    rw [State.task_schedule, State.task_setTask_self, htask]
    simp [TaskStorage.addInProgress, hfresh]
  · rw [hdef]
    simp
  · rw [hdef]
    simp
  · rw [hdef]
    simp

/-- C9 witness: creating a transient root task on a fresh backend. -/
theorem create_transient_task_spec_witness :
    Nat.testBit (createTransientTask (TransientTaskType.root 0) State.new).1 31 = true ∧
      lookupTransient (createTransientTask (TransientTaskType.root 0) State.new).2.transientTasks
          (createTransientTask (TransientTaskType.root 0) State.new).1 =
        some (TransientTaskType.root 0) ∧
      ((createTransientTask (TransientTaskType.root 0) State.new).2.task
          (createTransientTask (TransientTaskType.root 0) State.new).1).inProgress =
        some (InProgressState.scheduled false State.new.nextEventId
          (State.new.nextEventId + 1)) ∧
      (createTransientTask (TransientTaskType.root 0) State.new).2.scheduled =
        State.new.scheduled ++ [(createTransientTask (TransientTaskType.root 0) State.new).1] ∧
      (createTransientTask (TransientTaskType.root 0) State.new).2.persistedTaskCacheLog =
        State.new.persistedTaskCacheLog ∧
      (createTransientTask (TransientTaskType.root 0) State.new).2.persistedStorageLog =
        State.new.persistedStorageLog :=
  create_transient_task_spec (TransientTaskType.root 0) State.new (by decide) (by decide)
    (by decide) (by decide) (by decide)

/-- C10: `get_task_description(id)` returns the rendering of the
fingerprint mapped to `id` in the task cache, and panics (`expect("Task not
found")`, modelled by `none`) for every id absent from the fingerprint map —
in particular for every transient-range id, even one registered in the
transient-task table, whenever the cache holds only persistent-range ids. -/
theorem get_task_description_spec (s : State) (taskId : Nat) :
    (∀ tt, lookupReverse s.taskCache taskId = some tt →
      getTaskDescription s taskId = some tt.render) ∧
    (lookupReverse s.taskCache taskId = none → getTaskDescription s taskId = none) ∧
    ((∀ p ∈ s.taskCache, p.2 < TRANSIENT_TASK_BIT) → TRANSIENT_TASK_BIT ≤ taskId →
      ∀ spec, lookupTransient s.transientTasks taskId = some spec →
        getTaskDescription s taskId = none) := by
  refine ⟨?_, ?_, ?_⟩
  · intro tt htt
    simp [getTaskDescription, htt]
  · intro hnone
    simp [getTaskDescription, hnone]
  · intro hper htrans spec _
    have hnone : lookupReverse s.taskCache taskId = none := by
      unfold lookupReverse
      rw [List.find?_eq_none.mpr]
      · rfl
      · intro p hp
        have := hper p hp
        simp only [decide_eq_true_eq]
        omega
    simp [getTaskDescription, hnone]

/-- C10 witness: after creating a transient task on a fresh backend, the
description of its (transient-range) id panics even though the id is
registered in the transient-task table. -/
theorem get_task_description_spec_witness :
    getTaskDescription (createTransientTask (TransientTaskType.root 0) State.new).2
      (createTransientTask (TransientTaskType.root 0) State.new).1 = none :=
  (get_task_description_spec (createTransientTask (TransientTaskType.root 0) State.new).2
      (createTransientTask (TransientTaskType.root 0) State.new).1).2.2
    (by decide) (by decide) (TransientTaskType.root 0) (by decide)
